import Mathlib

/-!
Verification of the sound-wave visualizer (`src/app.py`).

The core of the program is the pure waveform evaluator `generate_waveform`
together with the frame generation of `update_animation` and the
try/except fallback at the bottom of the script.  We embed these over the
real numbers: numpy float arithmetic is modelled by exact real arithmetic,
`np.sin` by `Real.sin`, `np.exp` by `Real.exp`, `np.sign` by `Real.sign`
(both send 0 to 0 and use the sign otherwise), and numpy's `% 1` on floats
(which always returns a value in `[0,1)`) by `Int.fract`.  The module-level
global `speed` read inside `generate_waveform` is made an explicit
parameter.
-/

/-- The closed set of waveform kinds offered by the sidebar selectbox. -/
inductive Waveform
  | Sine
  | Square
  | Sawtooth
  | Triangle
deriving DecidableEq

open Waveform

/-- The phase adjustment computed at the top of `generate_waveform`:
`phase_adjusted = phase_rad + time_point * freq * 2 * np.pi * speed`. -/
noncomputable def phase_adjusted (time_point freq phase_rad speed : ℝ) : ℝ :=
  phase_rad + time_point * freq * 2 * Real.pi * speed

/-- The effective amplitude branch of `generate_waveform`:
if `damping > 0` then `amp * np.exp (-damping * np.abs x)` else `amp`. -/
noncomputable def effective_amp (x amp damping : ℝ) : ℝ :=
  if damping > 0 then amp * Real.exp (-damping * |x|) else amp

/-- Embedding of `generate_waveform` (src/app.py lines 90-108), pointwise on
one sample `x`.  The four branches follow the source exactly. -/
noncomputable def generate_waveform (x time_point : ℝ) (waveform_type : Waveform)
    (freq amp phase_rad damping speed : ℝ) : ℝ :=
  let pa := phase_adjusted time_point freq phase_rad speed
  let ea := effective_amp x amp damping
  match waveform_type with
  | Sine => ea * Real.sin (2 * Real.pi * freq * x + pa)
  | Square => ea * Real.sign (Real.sin (2 * Real.pi * freq * x + pa))
  | Sawtooth => ea * (2 * Int.fract (freq * x + pa / (2 * Real.pi)) - 1)
  | Triangle => ea * (2 * |2 * Int.fract (freq * x + pa / (2 * Real.pi)) - 1| - 1)

/-- The time points of `update_animation`: `np.linspace(0, 1, 20)`, i.e. the
20 values `i / 19` for `i = 0, …, 19` (numpy's `linspace` includes the
endpoint by default). -/
noncomputable def time_points : List ℝ :=
  (List.range 20).map (fun i : ℕ => (i : ℝ) / 19)

/-- A rendered frame.  For the properties in scope a frame is determined by
the time point it was rendered at, so we keep exactly that datum. -/
structure Frame where
  time_point : ℝ

/-- Embedding of `create_animation_frame`: the frame rendered at `t`. -/
def create_animation_frame (t : ℝ) : Frame := ⟨t⟩

/-- The frame list built by `update_animation` before the display loop:
one frame per entry of `time_points`, in order. -/
noncomputable def update_animation_frames : List Frame :=
  time_points.map create_animation_frame

/-- What the placeholder shows together with an optional warning banner. -/
structure DisplayState where
  image : Frame
  warning : Option String

/-- The warning text of the `except` branch. -/
def fallback_warning : String :=
  "Animation paused. Adjust parameters to see changes."

/-- Embedding of the try/except at the bottom of the script.  The animation
loop either runs forever (modelled as `Except.ok`, in which case control
never reaches the handler and nothing further is displayed by it) or raises
some exception; on any exception the handler displays the single static
frame `create_animation_frame 0` with the warning, and returns (no retry). -/
def run_app (animResult : Except String Unit) : Option DisplayState :=
  match animResult with
  | Except.ok _ => none
  | Except.error _ => some ⟨create_animation_frame 0, some fallback_warning⟩

/-- Variant of the evaluator written from the spec's damped formula alone:
the effective amplitude is always `amp * exp (-damping * |x|)`, with no
branch on `damping > 0`.  Used only to compare against `generate_waveform`
at the branch boundary `damping = 0`. -/
noncomputable def generate_waveform_always_damped (x time_point : ℝ)
    (waveform_type : Waveform) (freq amp phase_rad damping speed : ℝ) : ℝ :=
  let pa := phase_adjusted time_point freq phase_rad speed
  let ea := amp * Real.exp (-damping * |x|)
  match waveform_type with
  | Sine => ea * Real.sin (2 * Real.pi * freq * x + pa)
  | Square => ea * Real.sign (Real.sin (2 * Real.pi * freq * x + pa))
  | Sawtooth => ea * (2 * Int.fract (freq * x + pa / (2 * Real.pi)) - 1)
  | Triangle => ea * (2 * |2 * Int.fract (freq * x + pa / (2 * Real.pi)) - 1| - 1)

/-- Under `0 ≤ damping` the branch of `effective_amp` can be written
uniformly as the damped formula, since `exp 0 = 1`. -/
theorem effective_amp_eq_of_nonneg (x amp damping : ℝ) (hd : 0 ≤ damping) :
    effective_amp x amp damping = amp * Real.exp (-damping * |x|) := by
  unfold effective_amp
  by_cases h : damping > 0
  · rw [if_pos h]
  · rw [if_neg h]
    have h0 : damping = 0 := le_antisymm (not_lt.mp h) hd
    rw [h0]
    simp

/-- At zero damping the evaluator takes the else-branch, so the effective
amplitude is just `amp`. -/
theorem effective_amp_zero_damping (x amp : ℝ) : effective_amp x amp 0 = amp := by
  unfold effective_amp
  rw [if_neg (lt_irrefl 0)]

/-- C2: the Sine output is bounded in absolute value by the damped envelope
`amp * exp (-damping * |x|)`; with `damping = 0` it lies in `[-amp, amp]`. -/
theorem c2_sine_amplitude_bound (x t freq amp phase_rad damping speed : ℝ)
    (hamp_lo : 0.1 ≤ amp) (hamp_hi : amp ≤ 1) (hd : 0 ≤ damping) :
    |generate_waveform x t Sine freq amp phase_rad damping speed| ≤
      amp * Real.exp (-damping * |x|) ∧
    (damping = 0 →
      -amp ≤ generate_waveform x t Sine freq amp phase_rad damping speed ∧
      generate_waveform x t Sine freq amp phase_rad damping speed ≤ amp) := by
  have hamp : (0 : ℝ) ≤ amp := le_trans (by norm_num) hamp_lo
  have hgw : generate_waveform x t Sine freq amp phase_rad damping speed =
      effective_amp x amp damping *
        Real.sin (2 * Real.pi * freq * x + phase_adjusted t freq phase_rad speed) := rfl
  have hsin : |Real.sin (2 * Real.pi * freq * x + phase_adjusted t freq phase_rad speed)| ≤ 1 :=
    Real.abs_sin_le_one _
  have hea : effective_amp x amp damping = amp * Real.exp (-damping * |x|) :=
    effective_amp_eq_of_nonneg x amp damping hd
  have hea_nonneg : 0 ≤ effective_amp x amp damping := by
    rw [hea]; positivity
  have habs : |generate_waveform x t Sine freq amp phase_rad damping speed| ≤
      effective_amp x amp damping := by
    rw [hgw, abs_mul, abs_of_nonneg hea_nonneg]
    calc effective_amp x amp damping *
          |Real.sin (2 * Real.pi * freq * x + phase_adjusted t freq phase_rad speed)|
        ≤ effective_amp x amp damping * 1 := mul_le_mul_of_nonneg_left hsin hea_nonneg
      _ = effective_amp x amp damping := mul_one _
  refine ⟨hea ▸ habs, fun h0 => ?_⟩
  subst h0
  rw [effective_amp_zero_damping] at habs
  exact abs_le.mp habs

/-- Witness for C2 at `x = 0`, `t = 0`, `freq = 1`, `amp = 1/2`,
`phase = 0`, `damping = 0`, `speed = 1`. -/
theorem c2_sine_amplitude_bound_witness :
    |generate_waveform 0 0 Sine 1 (1 / 2) 0 0 1| ≤ 1 / 2 * Real.exp (-0 * |(0 : ℝ)|) ∧
    ((0 : ℝ) = 0 →
      -(1 / 2 : ℝ) ≤ generate_waveform 0 0 Sine 1 (1 / 2) 0 0 1 ∧
      generate_waveform 0 0 Sine 1 (1 / 2) 0 0 1 ≤ 1 / 2) :=
  c2_sine_amplitude_bound 0 0 1 (1 / 2) 0 0 1 (by norm_num) (by norm_num) (le_refl 0)

/-- C3: the Square output is one of `-effective_amp`, `0`, `effective_amp`,
and is `0` exactly when the sine of the argument is `0` (sign 0 = 0). -/
theorem c3_square_three_values (x t freq amp phase_rad damping speed : ℝ)
    (hamp_lo : 0.1 ≤ amp) (hamp_hi : amp ≤ 1) :
    (generate_waveform x t Square freq amp phase_rad damping speed =
        -(effective_amp x amp damping) ∨
      generate_waveform x t Square freq amp phase_rad damping speed = 0 ∨
      generate_waveform x t Square freq amp phase_rad damping speed =
        effective_amp x amp damping) ∧
    (generate_waveform x t Square freq amp phase_rad damping speed = 0 ↔
      Real.sin (2 * Real.pi * freq * x + phase_adjusted t freq phase_rad speed) = 0) := by
  have hamp : (0 : ℝ) < amp := lt_of_lt_of_le (by norm_num) hamp_lo
  have hea : 0 < effective_amp x amp damping := by
    unfold effective_amp
    by_cases h : damping > 0
    · rw [if_pos h]; positivity
    · rw [if_neg h]; exact hamp
  have hgw : generate_waveform x t Square freq amp phase_rad damping speed =
      effective_amp x amp damping *
        Real.sign (Real.sin (2 * Real.pi * freq * x + phase_adjusted t freq phase_rad speed)) :=
    rfl
  rcases lt_trichotomy
      (Real.sin (2 * Real.pi * freq * x + phase_adjusted t freq phase_rad speed)) 0 with
    hs | hs | hs
  · have hsgn := Real.sign_of_neg hs
    rw [hgw, hsgn]
    refine ⟨Or.inl (by ring), ?_⟩
    constructor
    · intro h
      exfalso
      have : effective_amp x amp damping = 0 := by linarith [mul_neg_one (effective_amp x amp damping), h]
      exact absurd this (ne_of_gt hea)
    · intro h
      exact absurd h (ne_of_lt hs)
  · have hsgn : Real.sign (Real.sin (2 * Real.pi * freq * x + phase_adjusted t freq phase_rad speed)) = 0 := by
      rw [hs]; exact Real.sign_zero
    rw [hgw, hsgn, mul_zero]
    exact ⟨Or.inr (Or.inl rfl), by simp [hs]⟩
  · have hsgn := Real.sign_of_pos hs
    rw [hgw, hsgn, mul_one]
    refine ⟨Or.inr (Or.inr rfl), ?_⟩
    constructor
    · intro h
      exact absurd h (ne_of_gt hea)
    · intro h
      exact absurd h (ne_of_gt hs)

/-- Witness for C3 at `x = 1/4`, `t = 0`, `freq = 1`, `amp = 1/2`,
`phase = 0`, `damping = 0`, `speed = 1`. -/
theorem c3_square_three_values_witness :
    (generate_waveform (1 / 4) 0 Square 1 (1 / 2) 0 0 1 = -(effective_amp (1 / 4) (1 / 2) 0) ∨
      generate_waveform (1 / 4) 0 Square 1 (1 / 2) 0 0 1 = 0 ∨
      generate_waveform (1 / 4) 0 Square 1 (1 / 2) 0 0 1 = effective_amp (1 / 4) (1 / 2) 0) ∧
    (generate_waveform (1 / 4) 0 Square 1 (1 / 2) 0 0 1 = 0 ↔
      Real.sin (2 * Real.pi * 1 * (1 / 4) + phase_adjusted 0 1 0 1) = 0) :=
  c3_square_three_values (1 / 4) 0 1 (1 / 2) 0 0 1 (by norm_num) (by norm_num)

/-- C4: with zero damping, Sawtooth and Triangle are periodic in `x` with
period `1 / freq`. -/
theorem c4_sawtooth_triangle_periodic (x t freq amp phase_rad speed : ℝ)
    (hfreq : 0 < freq) :
    generate_waveform (x + 1 / freq) t Sawtooth freq amp phase_rad 0 speed =
      generate_waveform x t Sawtooth freq amp phase_rad 0 speed ∧
    generate_waveform (x + 1 / freq) t Triangle freq amp phase_rad 0 speed =
      generate_waveform x t Triangle freq amp phase_rad 0 speed := by
  have hfr : freq * (x + 1 / freq) + phase_adjusted t freq phase_rad speed / (2 * Real.pi) =
      (freq * x + phase_adjusted t freq phase_rad speed / (2 * Real.pi)) + 1 := by
    field_simp
    ring
  constructor
  · have e1 : generate_waveform (x + 1 / freq) t Sawtooth freq amp phase_rad 0 speed =
        effective_amp (x + 1 / freq) amp 0 *
          (2 * Int.fract (freq * (x + 1 / freq) +
            phase_adjusted t freq phase_rad speed / (2 * Real.pi)) - 1) := rfl
    have e2 : generate_waveform x t Sawtooth freq amp phase_rad 0 speed =
        effective_amp x amp 0 *
          (2 * Int.fract (freq * x +
            phase_adjusted t freq phase_rad speed / (2 * Real.pi)) - 1) := rfl
    rw [e1, e2, effective_amp_zero_damping, effective_amp_zero_damping, hfr,
      Int.fract_add_one]
  · have e1 : generate_waveform (x + 1 / freq) t Triangle freq amp phase_rad 0 speed =
        effective_amp (x + 1 / freq) amp 0 *
          (2 * |2 * Int.fract (freq * (x + 1 / freq) +
            phase_adjusted t freq phase_rad speed / (2 * Real.pi)) - 1| - 1) := rfl
    have e2 : generate_waveform x t Triangle freq amp phase_rad 0 speed =
        effective_amp x amp 0 *
          (2 * |2 * Int.fract (freq * x +
            phase_adjusted t freq phase_rad speed / (2 * Real.pi)) - 1| - 1) := rfl
    rw [e1, e2, effective_amp_zero_damping, effective_amp_zero_damping, hfr,
      Int.fract_add_one]

/-- Witness for C4 at `x = 0`, `t = 0`, `freq = 1`, `amp = 1/2`,
`phase = 0`, `speed = 1`. -/
theorem c4_sawtooth_triangle_periodic_witness :
    generate_waveform (0 + 1 / 1) 0 Sawtooth 1 (1 / 2) 0 0 1 =
      generate_waveform 0 0 Sawtooth 1 (1 / 2) 0 0 1 ∧
    generate_waveform (0 + 1 / 1) 0 Triangle 1 (1 / 2) 0 0 1 =
      generate_waveform 0 0 Triangle 1 (1 / 2) 0 0 1 :=
  c4_sawtooth_triangle_periodic 0 0 1 (1 / 2) 0 1 (by norm_num)

/-- C5: for fixed `x > 0` and `amp > 0`, the effective amplitude is strictly
decreasing in the damping rate on `(0, ∞)`. -/
theorem c5_damping_strict_monotone (x amp d1 d2 : ℝ) (hx : 0 < x) (hamp : 0 < amp)
    (h1 : 0 < d1) (h12 : d1 < d2) :
    effective_amp x amp d2 < effective_amp x amp d1 := by
  have h2 : 0 < d2 := lt_trans h1 h12
  unfold effective_amp
  rw [if_pos h1, if_pos h2]
  apply mul_lt_mul_of_pos_left _ hamp
  apply Real.exp_lt_exp.mpr
  rw [abs_of_pos hx]
  nlinarith

/-- Witness for C5 at `x = 1`, `amp = 1/2`, `d1 = 1/10`, `d2 = 1/5`. -/
theorem c5_damping_strict_monotone_witness :
    effective_amp 1 (1 / 2) (1 / 5) < effective_amp 1 (1 / 2) (1 / 10) :=
  c5_damping_strict_monotone 1 (1 / 2) (1 / 10) (1 / 5) (by norm_num) (by norm_num)
    (by norm_num) (by norm_num)

/-- C6: with frequency 5, amplitude 0.8, phase 0, damping 0 at time 0, the
Sine evaluator yields 0 at `x = 0` and exactly 0.8 at `x = 0.05`, and one
frame generation produces exactly 20 frames. -/
theorem c6_sine_scenario_and_frame_count :
    generate_waveform 0 0 Sine 5 0.8 0 0 1 = 0 ∧
    generate_waveform 0.05 0 Sine 5 0.8 0 0 1 = 0.8 ∧
    update_animation_frames.length = 20 := by
  refine ⟨?_, ?_, ?_⟩
  · simp [generate_waveform, phase_adjusted, effective_amp]
  · have harg : 2 * Real.pi * 5 * 0.05 + phase_adjusted 0 5 0 1 = Real.pi / 2 := by
      simp [phase_adjusted]; ring
    simp only [generate_waveform, harg, Real.sin_pi_div_two, effective_amp]
    norm_num
  · rw [update_animation_frames, List.length_map, time_points, List.length_map,
      List.length_range]

/-- C7: on any error raised out of the animation loop, the handler displays
exactly one static frame, rendered at time 0, together with the non-fatal
warning, and does not re-enter the loop (the handler's result is a single
display state, not a restarted animation). -/
theorem c7_error_fallback (e : String) :
    ∃ d : DisplayState,
      run_app (Except.error e) = some d ∧
      d.image = create_animation_frame 0 ∧
      d.image.time_point = 0 ∧
      d.warning = some fallback_warning :=
  ⟨⟨create_animation_frame 0, some fallback_warning⟩, rfl, rfl, rfl, rfl⟩

/-- Witness for C7 on a concrete error. -/
theorem c7_error_fallback_witness :
    ∃ d : DisplayState,
      run_app (Except.error "frame generation failed") = some d ∧
      d.image = create_animation_frame 0 ∧
      d.image.time_point = 0 ∧
      d.warning = some fallback_warning :=
  c7_error_fallback "frame generation failed"

/-- C8: damping has no effect at the origin: for every positive damping
rate, the evaluator at `x = 0` agrees with the undamped evaluator, for all
four waveform kinds. -/
theorem c8_damping_no_effect_at_origin (t : ℝ) (w : Waveform)
    (freq amp phase_rad damping speed : ℝ) (hd : 0 < damping) :
    generate_waveform 0 t w freq amp phase_rad damping speed =
      generate_waveform 0 t w freq amp phase_rad 0 speed := by
  have he : effective_amp 0 amp damping = effective_amp 0 amp 0 := by
    unfold effective_amp
    rw [if_pos hd, if_neg (lt_irrefl 0)]
    simp
  cases w <;> exact congrArg (· * _) he

/-- Witness for C8 at `damping = 1/10`, Sine, `t = 0`, `freq = 1`,
`amp = 1/2`, `phase = 0`, `speed = 1`. -/
theorem c8_damping_no_effect_at_origin_witness :
    generate_waveform 0 0 Sine 1 (1 / 2) 0 (1 / 10) 1 =
      generate_waveform 0 0 Sine 1 (1 / 2) 0 0 1 :=
  c8_damping_no_effect_at_origin 0 Sine 1 (1 / 2) 0 (1 / 10) 1 (by norm_num)

/-- C9: whenever the effective amplitude is positive, the Sawtooth output
lies in the half-open interval `[-effective_amp, effective_amp)`: it never
attains the upper bound, because the fractional part lies in `[0, 1)`. -/
theorem c9_sawtooth_half_open_range (x t freq amp phase_rad damping speed : ℝ)
    (he : 0 < effective_amp x amp damping) :
    -(effective_amp x amp damping) ≤
      generate_waveform x t Sawtooth freq amp phase_rad damping speed ∧
    generate_waveform x t Sawtooth freq amp phase_rad damping speed <
      effective_amp x amp damping := by
  have hgw : generate_waveform x t Sawtooth freq amp phase_rad damping speed =
      effective_amp x amp damping *
        (2 * Int.fract (freq * x + phase_adjusted t freq phase_rad speed / (2 * Real.pi)) - 1) :=
    rfl
  have h0 : 0 ≤ Int.fract (freq * x + phase_adjusted t freq phase_rad speed / (2 * Real.pi)) :=
    Int.fract_nonneg _
  have h1 : Int.fract (freq * x + phase_adjusted t freq phase_rad speed / (2 * Real.pi)) < 1 :=
    Int.fract_lt_one _
  rw [hgw]
  constructor
  · nlinarith
  · nlinarith

/-- Witness for C9 at `x = 0`, `t = 0`, `freq = 1`, `amp = 1/2`,
`phase = 0`, `damping = 0`, `speed = 1`. -/
theorem c9_sawtooth_half_open_range_witness :
    -(effective_amp 0 (1 / 2) 0) ≤ generate_waveform 0 0 Sawtooth 1 (1 / 2) 0 0 1 ∧
    generate_waveform 0 0 Sawtooth 1 (1 / 2) 0 0 1 < effective_amp 0 (1 / 2) 0 :=
  c9_sawtooth_half_open_range 0 0 1 (1 / 2) 0 0 1
    (by rw [effective_amp_zero_damping]; norm_num)

/-- C10: at the branch boundary `damping = 0` the evaluator agrees with the
variant that always applies the damped formula `amp * exp (-damping * |x|)`,
for every waveform kind and all remaining parameters. -/
theorem c10_branch_boundary_agreement (x t : ℝ) (w : Waveform)
    (freq amp phase_rad speed : ℝ) :
    generate_waveform x t w freq amp phase_rad 0 speed =
      generate_waveform_always_damped x t w freq amp phase_rad 0 speed := by
  have he : effective_amp x amp 0 = amp * Real.exp (-0 * |x|) := by
    rw [effective_amp_zero_damping]
    simp
  cases w <;> exact congrArg (· * _) he

/-- C1 fails as stated: the last time point of `np.linspace(0, 1, 20)` is
exactly 1, which is not in the half-open interval `[0, 1)`. -/
theorem c1_counterexample : (1 : ℝ) ∈ time_points ∧ ¬ ((1 : ℝ) < 1) := by
  constructor
  · have : ((19 : ℕ) : ℝ) / 19 = (1 : ℝ) := by norm_num
    rw [time_points, List.mem_map]
    exact ⟨19, by simp, this⟩
  · exact lt_irrefl 1

/-- C1 (amended): the frame generator builds exactly 20 equally spaced time
points, the i-th being `i / 19`, all lying in the closed interval `[0, 1]`
(the last equals 1). -/
theorem c1_amended_time_points (i : ℕ) (hi : i < 20) :
    time_points.length = 20 ∧
    time_points.getD i 0 = (i : ℝ) / 19 ∧
    0 ≤ time_points.getD i 0 ∧ time_points.getD i 0 ≤ 1 := by
  have hlen : time_points.length = 20 := by
    rw [time_points, List.length_map, List.length_range]
  have hget : time_points.getD i 0 = (i : ℝ) / 19 := by
    rw [time_points, List.getD, List.get?_map, List.get?_range hi]
    rfl
  refine ⟨hlen, hget, ?_, ?_⟩
  · rw [hget]
    positivity
  · rw [hget]
    rw [div_le_one (by norm_num)]
    exact_mod_cast Nat.le_of_lt_succ (by omega)

/-- Witness for the amended C1 at the last index: the 20th time point is
`19 / 19 = 1`, which lies in `[0, 1]`. -/
theorem c1_amended_time_points_witness :
    time_points.length = 20 ∧
    time_points.getD 19 0 = ((19 : ℕ) : ℝ) / 19 ∧
    0 ≤ time_points.getD 19 0 ∧ time_points.getD 19 0 ≤ 1 :=
  c1_amended_time_points 19 (by norm_num)
